import Mathlib

/-!
# Verification of the semantic-search pipeline of `src/app/api/search/route.ts`

This file is a shallow embedding of the retrieval-augmented search route of the
repository: a module-level singleton `MemoryVectorStore`, a one-time indexing
pass (read PDF files → load pages → split into chunks → embed → index), and a
`POST` handler that validates the request body, runs a similarity search and
streams the results as server-sent events.

The route delegates splitting and the vector store to an external SDK whose
code is not part of the repository; those two components are modelled from the
specification (their doc comments start with `Modelled from the spec:`).
Everything else is translated directly from `src/app/api/search/route.ts`.

Floating-point similarity scores are modelled with `ℚ`; where an ordering or
counting property is independent of the particular similarity function, the
function is taken as a parameter.
-/

/-- An embedding vector (the remote embedding service returns a fixed-length
sequence of numbers; we model the entries with `ℚ`). -/
abbrev Emb := List ℚ

/-- One entry of the in-memory vector index: the embedding together with the
chunk text it was computed from (`{ embedding, chunk }` in the spec;
`MemoryVector` in the SDK). -/
structure IndexEntry where
  embedding : Emb
  content : String
deriving DecidableEq, Repr

/-! ## Vector index (modelled from the spec)

The repository stores entries in a `MemoryVectorStore` from the SDK; the SDK's
code is not in the repository, so the index lookup is modelled from the spec:
"Computes similarity (cosine similarity, defined as the normalized dot product)
between `queryEmbedding` and every stored embedding, and returns the top `k`
entries ordered by descending similarity score. Tie-break for equal scores:
stable by insertion order."  The cosine function itself is a floating-point
computation of the SDK; it is abstracted as a parameter `sim`, since every
property claimed of the lookup (result count, descending order, stable
tie-break, behaviour on the empty index) holds for an arbitrary score
function. -/

/-- Modelled from the spec: score every stored entry against the query
embedding, remembering each entry's insertion position (the brute-force O(n)
scan of §4.4). -/
def scoredEntries (sim : Emb → Emb → ℚ) (entries : List IndexEntry) (v : Emb) :
    List (ℚ × ℕ × IndexEntry) :=
  entries.enum.map fun p => (sim v p.2.embedding, p.1, p.2)

/-- Modelled from the spec: the ranking order of the lookup — higher score
first, and for equal scores the earlier-inserted entry first. -/
def rankLE (a b : ℚ × ℕ × IndexEntry) : Prop :=
  b.1 < a.1 ∨ (a.1 = b.1 ∧ a.2.1 ≤ b.2.1)

instance : DecidableRel rankLE := fun a b => by
  unfold rankLE; infer_instance

instance : IsTotal (ℚ × ℕ × IndexEntry) rankLE := by
  constructor
  intro a b
  rcases lt_trichotomy a.1 b.1 with h | h | h
  · exact Or.inr (Or.inl h)
  · rcases Nat.le_total a.2.1 b.2.1 with hi | hi
    · exact Or.inl (Or.inr ⟨h, hi⟩)
    · exact Or.inr (Or.inr ⟨h.symm, hi⟩)
  · exact Or.inl (Or.inl h)

instance : IsTrans (ℚ × ℕ × IndexEntry) rankLE := by
  constructor
  intro a b c hab hbc
  rcases hab with hab | ⟨hab, hia⟩ <;> rcases hbc with hbc | ⟨hbc, hib⟩
  · exact Or.inl (hbc.trans hab)
  · exact Or.inl (hbc ▸ hab)
  · exact Or.inl (hab ▸ hbc)
  · exact Or.inr ⟨hab.trans hbc, hia.trans hib⟩

/-- Modelled from the spec: the scored entries sorted by descending score with
ties broken by insertion order, truncated to the top `k`; the score and the
insertion position are kept alongside each entry so that the ranking policy can
be stated. -/
def queryRanked (sim : Emb → Emb → ℚ) (entries : List IndexEntry) (v : Emb)
    (k : ℕ) : List (ℚ × ℕ × IndexEntry) :=
  ((scoredEntries sim entries v).insertionSort rankLE).take k

/-- Modelled from the spec: `query(queryEmbedding, k)` of the Vector Index
(§4.4) — the top `k` stored entries by descending similarity. -/
def MemoryVectorStore.query (sim : Emb → Emb → ℚ) (entries : List IndexEntry)
    (v : Emb) (k : ℕ) : List IndexEntry :=
  (queryRanked sim entries v k).map fun p => p.2.2

/-- Modelled from the spec / the SDK's interface: `store.similaritySearch(query)`
first embeds the query text, then performs the top-`k` lookup; the route passes
no `k`, so the SDK's default `k = 4` applies (`similaritySearch(query, k = 4)`
in the SDK's declared signature). -/
def MemoryVectorStore.similaritySearch (sim : Emb → Emb → ℚ)
    (embedQuery : String → Emb) (entries : List IndexEntry) (q : String) :
    List IndexEntry :=
  MemoryVectorStore.query sim entries (embedQuery q) 4

/-! ## The route: `src/app/api/search/route.ts` -/

/-- `files.filter(file => file.endsWith('.pdf'))` — only PDF files of the
corpus directory are loaded.  JavaScript's `endsWith` is a suffix test on the
string's character sequence, modelled here on the strings' character lists. -/
def recognizedPdfFiles (files : List String) : List String :=
  files.filter fun f => ".pdf".toList.isSuffixOf f.toList

/-- The document texts produced by the loading-and-splitting stage of
`initVectorStore`: each recognized PDF file is loaded into a list of page
documents (`loader.load()`), the per-file lists are concatenated
(`docs.flat()`), and the splitter turns each document into a list of chunk
texts, concatenated in order (`splitter.splitDocuments(allDocs)`). The PDF
extractor `loadPages` and the SDK splitter `splitText` are external
collaborators taken as parameters. -/
def corpusChunks (loadPages : String → List String)
    (splitText : String → List String) (files : List String) : List String :=
  (((recognizedPdfFiles files).map loadPages).flatten.map splitText).flatten

/-- `store.addDocuments(splits)` on a freshly constructed store: embed every
chunk text and collect the (embedding, text) entries, in order. -/
def buildStore (embedDoc : String → Emb) (docs : List String) :
    List IndexEntry :=
  docs.map fun t => ⟨embedDoc t, t⟩

/-- `initVectorStore` of the route, acting on the module-level singleton
`vectorStore : Option (List IndexEntry)`.  If the singleton is already set it
is returned unchanged (`if (vectorStore) return vectorStore`). Otherwise the
indexing pass runs: it reads the corpus, splits it, embeds it into a fresh
local store, and only after every step succeeded assigns the singleton
(`vectorStore = store`).  The pass's fallible steps (file reads, the embedding
network calls) are summarized by the flag `failIndex`: when it is set the pass
throws and the singleton is left untouched. Returns the new singleton state
and either the store or the propagated error. -/
def initVectorStore (embedDoc : String → Emb) (loadPages : String → List String)
    (splitText : String → List String) (files : List String) (failIndex : Bool)
    (st : Option (List IndexEntry)) :
    Option (List IndexEntry) × Except Unit (List IndexEntry) :=
  match st with
  | some s => (some s, .ok s)
  | none =>
      if failIndex then (none, .error ())
      else
        let s := buildStore embedDoc (corpusChunks loadPages splitText files)
        (some s, .ok s)

/-- `!query` in JavaScript, for `query : string | undefined`: truthy-falsiness
rejects a missing field and the empty string, and nothing else. -/
def jsFalsy (q : Option String) : Bool :=
  match q with
  | none => true
  | some s => decide (s = "")

/-- One observable event of a `POST` request: the query-embedding network call
made by `similaritySearch`, one `controller.enqueue` of a serialized result,
or the final `controller.close()`. -/
inductive Event where
  | embedQuery
  | data (r : IndexEntry)
  | close
deriving DecidableEq, Repr

/-- The body of the `ReadableStream`'s `start` callback:
`searchResults.forEach(result => controller.enqueue(...)); controller.close()`
— the sequence of stream events it produces. -/
def streamEvents (results : List IndexEntry) : List Event :=
  (results.foldl (fun acc r => acc ++ [Event.data r]) []) ++ [Event.close]

deriving instance DecidableEq for Except

/-- The outcome of one `POST` request: the singleton state after the request,
and either the propagated indexing error or the HTTP status together with the
events of the request (the `data:` lines of the response stream, plus the
query-embedding call). -/
structure PostOutcome where
  newStore : Option (List IndexEntry)
  result : Except Unit (ℕ × List Event)
deriving DecidableEq, Repr

/-- The `POST` handler of the route: first `await initVectorStore()`, then read
the body and reject a falsy `query` with status 400 (`'Missing query'`), then
`store.similaritySearch(query)` (which embeds the query — a network call) and
stream each result as one event, closing the stream at the end (status 200). -/
def POST (sim : Emb → Emb → ℚ) (embedQuery : String → Emb)
    (embedDoc : String → Emb) (loadPages : String → List String)
    (splitText : String → List String) (files : List String) (failIndex : Bool)
    (st : Option (List IndexEntry)) (body : Option String) : PostOutcome :=
  match initVectorStore embedDoc loadPages splitText files failIndex st with
  | (st1, .error e) => ⟨st1, .error e⟩
  | (st1, .ok store) =>
      if jsFalsy body then ⟨st1, .ok (400, [])⟩
      else
        let results := MemoryVectorStore.similaritySearch sim embedQuery store
          (body.getD "")
        ⟨st1, .ok (200, Event.embedQuery :: streamEvents results)⟩

/-! ## Chunker (modelled from the spec)

The route delegates splitting to the SDK's `RecursiveCharacterTextSplitter`
(`chunkSize: 1000, chunkOverlap: 200`), whose code is not in the repository.
The Chunker is therefore modelled from the spec (§4.2): "walk the unit's text
from offset 0; at each step emit a chunk spanning `[cursor, cursor +
maxChunkSize)` clipped to text length; advance the cursor by `maxChunkSize -
overlapSize`; stop once the emitted chunk reaches the end of the text." -/

/-- One loaded source artifact (text modelled as a character list so that
offsets are plain indices). -/
structure RawUnit where
  text : List Char
  sourceId : String

/-- A bounded slice of a RawUnit's text, with its position in the original
text. -/
structure Chunk where
  text : List Char
  sourceId : String
  offsetStart : ℕ
  offsetEnd : ℕ

/-- Modelled from the spec: the offset windows `[cursor, cursor + M)` clipped
to text length `L`, starting at cursor `c`, advancing by `M - O`, stopping with
the window that reaches the end of the text. -/
def chunkWindows (M O L : ℕ) (h : O < M) (c : ℕ) : List (ℕ × ℕ) :=
  if L ≤ c + M then [(c, L)]
  else (c, c + M) :: chunkWindows M O L h (c + (M - O))
termination_by L - c
decreasing_by omega

/-- Modelled from the spec: `chunk(unit, maxChunkSize, overlapSize)` — the
chunk sequence of one raw unit, each chunk carrying its text slice, the
source id, and its offsets. -/
def chunk (u : RawUnit) (M O : ℕ) (h : O < M) : List Chunk :=
  (chunkWindows M O u.text.length h 0).map fun p =>
    ⟨(u.text.drop p.1).take (p.2 - p.1), u.sourceId, p.1, p.2⟩

/-! ## Interleaving model of the singleton initialization

`initVectorStore` is an `async` function with `await` points between its
null-check of the module-level `vectorStore` and its final assignment
`vectorStore = store`.  Two concurrent `POST` requests therefore interleave:
each request is a little state machine that (1) performs the null-check —
returning the published store if there is one and otherwise beginning its own
indexing pass — and (2) if it started a pass, builds a fresh local store from
the corpus and publishes it with a single assignment.  A schedule is the list
of which request moves at each step. -/

/-- Where one request stands in `initVectorStore`: before the null-check,
inside its own indexing pass, or finished. -/
inductive ReqPhase where
  | start
  | building
  | done
deriving DecidableEq, Repr

/-- The module state plus the two requests' positions and a counter of the
indexing passes that have been started. -/
structure ConcState where
  vectorStore : Option (List String)
  passes : ℕ
  phase0 : ReqPhase
  phase1 : ReqPhase
deriving DecidableEq, Repr

/-- One step of one request: at `start`, the null-check — observe a published
store and finish, or find `null` and begin an indexing pass; at `building`,
finish the pass by publishing a fresh store holding exactly the corpus chunks
(`vectorStore = store`). -/
def reqStep (chunks : List String) (vs : Option (List String)) (ph : ReqPhase)
    (passes : ℕ) : Option (List String) × ReqPhase × ℕ :=
  match ph with
  | .start =>
      match vs with
      | some s => (some s, .done, passes)
      | none => (none, .building, passes + 1)
  | .building => (some chunks, .done, passes)
  | .done => (vs, .done, passes)

/-- One step of the interleaved system: request `false` or request `true`
moves. -/
def concStep (chunks : List String) (s : ConcState) (i : Bool) : ConcState :=
  if i then
    let (vs, ph, p) := reqStep chunks s.vectorStore s.phase1 s.passes
    ⟨vs, p, s.phase0, ph⟩
  else
    let (vs, ph, p) := reqStep chunks s.vectorStore s.phase0 s.passes
    ⟨vs, p, ph, s.phase1⟩

/-- Run a schedule from the initial module state (`vectorStore = null`, no
passes, both requests about to call `initVectorStore`). -/
def concRun (chunks : List String) (sched : List Bool) : ConcState :=
  sched.foldl (concStep chunks) ⟨none, 0, .start, .start⟩

/-! ## Concrete instantiations of the external collaborators

Used to evaluate the model at concrete inputs: a trivial similarity, a
constant one-dimensional embedder, a PDF extractor returning one page, and a
splitter that keeps each document whole. -/

/-- A concrete similarity function (constant). -/
def cSim : Emb → Emb → ℚ := fun _ _ => 0

/-- A concrete embedder (constant one-dimensional vector). -/
def cEmb : String → Emb := fun _ => [1]

/-- A concrete PDF page extractor (every file yields one page). -/
def cLoad : String → List String := fun _ => ["page one"]

/-- A concrete splitter (each document is one chunk). -/
def cSplit : String → List String := fun t => [t]

/-- A dot-product similarity, executable over `ℚ` (used to evaluate the
ranking at concrete inputs). -/
def dotSim : Emb → Emb → ℚ := fun v w => (v.zipWith (· * ·) w).sum

/-- A small concrete index: two entries with equal score against `[1, 0]`
(the first and third) and one orthogonal entry. -/
def demoEntries : List IndexEntry :=
  [⟨[1, 0], "a"⟩, ⟨[0, 1], "b"⟩, ⟨[1, 0], "c"⟩]

/-- The number of `data:` events (enqueued results) among a request's
events. -/
def dataEventCount (evs : List Event) : ℕ :=
  (evs.filter fun e => match e with | .data _ => true | _ => false).length

/-! ## Helper lemmas -/

theorem streamEvents_foldl (results : List IndexEntry) (acc : List Event) :
    results.foldl (fun a r => a ++ [Event.data r]) acc =
      acc ++ results.map Event.data := by
  induction results generalizing acc with
  | nil => simp
  | cons r rs ih => simp [ih]

theorem streamEvents_def (results : List IndexEntry) :
    streamEvents results = results.map Event.data ++ [Event.close] := by
  unfold streamEvents
  rw [streamEvents_foldl]
  simp

/-! ## Theorems -/

/-- **C8.** The stream callback emits exactly one event per query result, in
exactly the order of the result list — no reordering, no reversal, no
deduplication — and closes the channel after the last result: the event list
is the image of the result list under `Event.data`, followed by the single
closing event. -/
theorem stream_preserves_order (results : List IndexEntry) :
    streamEvents results = results.map Event.data ++ [Event.close] :=
  streamEvents_def results

/-- **C2, counterexample.** A whitespace-only query (`" "`) is not rejected:
`!query` is false for a non-empty string, so the request proceeds to the
query-embedding network call and gets a 200 response with a result event.
Moreover, even for the empty query — which is rejected with 400 — the
rejection happens only after `initVectorStore()` has run: the singleton is
populated (the corpus-embedding calls were made) on behalf of the rejected
request. -/
theorem whitespace_query_not_rejected :
    (POST cSim cEmb cEmb cLoad cSplit ["cv.pdf"] false none (some " ")).result =
      .ok (200, [Event.embedQuery, Event.data ⟨[1], "page one"⟩, Event.close]) ∧
    (POST cSim cEmb cEmb cLoad cSplit ["cv.pdf"] false none (some "")).result =
      .ok (400, []) ∧
    (POST cSim cEmb cEmb cLoad cSplit ["cv.pdf"] false none (some "")).newStore =
      some [⟨[1], "page one"⟩] := by
  decide

/-- **C2, amended.** A request whose query field is absent or the empty string
(exactly the falsy values of `query : string | undefined`) is rejected with
status 400 and no events — in particular no query-embedding call ever happens
for it. (Whitespace-only queries are not rejected, and index initialization,
with its corpus-embedding network calls on a first request, runs before the
validation.) -/
theorem falsy_query_rejected (sim : Emb → Emb → ℚ) (embedQuery : String → Emb)
    (embedDoc : String → Emb) (loadPages splitText : String → List String)
    (files : List String) (failIndex : Bool) (st : Option (List IndexEntry))
    (body : Option String) (hb : jsFalsy body = true) (s : ℕ)
    (evs : List Event)
    (h : (POST sim embedQuery embedDoc loadPages splitText files failIndex st
      body).result = .ok (s, evs)) :
    s = 400 ∧ evs = [] := by
  rcases st with _ | s0 <;> cases failIndex <;>
    simp [POST, initVectorStore, hb] at h
  all_goals exact ⟨h.1.symm, h.2⟩

theorem falsy_query_rejected_witness : (400 : ℕ) = 400 ∧ ([] : List Event) = [] :=
  falsy_query_rejected cSim cEmb cEmb cLoad cSplit ["cv.pdf"] false none
    (some "") rfl 400 [] rfl

/-- **C3.** Indexing is atomic with respect to the published singleton: a
failed pass leaves the singleton exactly as it was (no partial index is
published), any published singleton is either the previously published store
or the full build of the corpus (never a half-populated store), and after a
failed pass a subsequent attempt runs again and publishes the full index. -/
theorem initVectorStore_atomic (embedDoc : String → Emb)
    (loadPages splitText : String → List String) (files : List String)
    (st : Option (List IndexEntry)) :
    (initVectorStore embedDoc loadPages splitText files true st).fst = st ∧
    (∀ fail s',
      (initVectorStore embedDoc loadPages splitText files fail st).fst =
        some s' →
      st = some s' ∨
        s' = buildStore embedDoc (corpusChunks loadPages splitText files)) ∧
    (initVectorStore embedDoc loadPages splitText files false
        (initVectorStore embedDoc loadPages splitText files true none).fst).snd =
      .ok (buildStore embedDoc (corpusChunks loadPages splitText files)) := by
  refine ⟨?_, ?_, ?_⟩
  · rcases st with _ | s0 <;> simp [initVectorStore]
  · intro fail s' h
    rcases st with _ | s0 <;> cases fail <;> simp [initVectorStore] at h
    · exact Or.inr h.symm
    · exact Or.inl (by rw [h])
    · exact Or.inl (by rw [h])
  · simp [initVectorStore]

theorem initVectorStore_atomic_witness :
    (none : Option (List IndexEntry)) =
        some (buildStore cEmb (corpusChunks cLoad cSplit ["cv.pdf"])) ∨
      buildStore cEmb (corpusChunks cLoad cSplit ["cv.pdf"]) =
        buildStore cEmb (corpusChunks cLoad cSplit ["cv.pdf"]) :=
  (initVectorStore_atomic cEmb cLoad cSplit ["cv.pdf"] none).2.1 false
    (buildStore cEmb (corpusChunks cLoad cSplit ["cv.pdf"])) (by decide)

theorem POST_newStore_eq (sim : Emb → Emb → ℚ) (embedQuery : String → Emb)
    (embedDoc : String → Emb) (loadPages splitText : String → List String)
    (files : List String) (failIndex : Bool) (st : Option (List IndexEntry))
    (body : Option String) :
    (POST sim embedQuery embedDoc loadPages splitText files failIndex st
        body).newStore =
      (initVectorStore embedDoc loadPages splitText files failIndex st).fst := by
  unfold POST
  rcases hiv : initVectorStore embedDoc loadPages splitText files failIndex st
    with ⟨st1, r⟩
  rcases r with e | s
  · rfl
  · by_cases hb : jsFalsy body <;> simp [hb]

theorem POST_result_cases (sim : Emb → Emb → ℚ) (embedQuery : String → Emb)
    (embedDoc : String → Emb) (loadPages splitText : String → List String)
    (files : List String) (failIndex : Bool) (st : Option (List IndexEntry))
    (body : Option String) (s : ℕ) (evs : List Event)
    (h : (POST sim embedQuery embedDoc loadPages splitText files failIndex st
      body).result = .ok (s, evs)) :
    (s = 400 ∧ evs = []) ∨
      ∃ store,
        (initVectorStore embedDoc loadPages splitText files failIndex st).snd =
            .ok store ∧
          s = 200 ∧
          evs = Event.embedQuery :: streamEvents
            (MemoryVectorStore.similaritySearch sim embedQuery store
              (body.getD "")) := by
  unfold POST at h
  rcases hiv : initVectorStore embedDoc loadPages splitText files failIndex st
    with ⟨st1, r⟩
  rw [hiv] at h
  rcases r with e | store
  · simp at h
  · by_cases hb : jsFalsy body <;> simp [hb] at h
    · exact Or.inl ⟨h.1.symm, h.2⟩
    · exact Or.inr ⟨store, rfl, h.1.symm, h.2.symm⟩

/-- **C9.** After any completed `POST` request — including one whose body has
no query and is answered with 400 — the module-level singleton is non-null,
and if the singleton was null before the request, it now holds the full index
of the corpus: initialization runs before the body is read or validated. -/
theorem POST_initializes_singleton (sim : Emb → Emb → ℚ)
    (embedQuery : String → Emb) (embedDoc : String → Emb)
    (loadPages splitText : String → List String) (files : List String)
    (failIndex : Bool) (st : Option (List IndexEntry)) (body : Option String)
    (out : ℕ × List Event)
    (h : (POST sim embedQuery embedDoc loadPages splitText files failIndex st
      body).result = .ok out) :
    (POST sim embedQuery embedDoc loadPages splitText files failIndex st
        body).newStore.isSome = true ∧
      (st = none →
        (POST sim embedQuery embedDoc loadPages splitText files failIndex st
            body).newStore =
          some (buildStore embedDoc (corpusChunks loadPages splitText files))) := by
  rw [POST_newStore_eq]
  unfold POST at h
  rcases st with _ | s0
  · cases failIndex
    · simp [initVectorStore]
    · simp [initVectorStore] at h
  · simp [initVectorStore]

theorem POST_initializes_singleton_witness :
    (POST cSim cEmb cEmb cLoad cSplit ["cv.pdf"] false none none).newStore.isSome
        = true ∧
      ((none : Option (List IndexEntry)) = none →
        (POST cSim cEmb cEmb cLoad cSplit ["cv.pdf"] false none none).newStore =
          some (buildStore cEmb (corpusChunks cLoad cSplit ["cv.pdf"]))) :=
  POST_initializes_singleton cSim cEmb cEmb cLoad cSplit ["cv.pdf"] false none
    none (400, []) (by decide)

theorem query_length (sim : Emb → Emb → ℚ) (entries : List IndexEntry)
    (v : Emb) (k : ℕ) :
    (MemoryVectorStore.query sim entries v k).length = min k entries.length := by
  unfold MemoryVectorStore.query queryRanked scoredEntries
  rw [List.length_map, List.length_take, List.length_insertionSort,
    List.length_map, List.enum_length]

theorem dataEventCount_stream (results : List IndexEntry) :
    dataEventCount (Event.embedQuery :: streamEvents results) =
      results.length := by
  unfold dataEventCount
  rw [streamEvents_def]
  induction results with
  | nil => rfl
  | cons r rs ih => simpa using ih

/-- **C7.** Querying an empty index returns the empty result sequence for
every query embedding and every `k ≥ 0`; in particular, when the corpus
directory holds zero recognized (`.pdf`) files, any `POST` with a non-empty
query succeeds with status 200 and streams zero results (the only events are
the query-embedding call and the channel close), not an error. -/
theorem query_empty_index (sim : Emb → Emb → ℚ) (v : Emb) (k : ℕ)
    (embedQuery : String → Emb) (embedDoc : String → Emb)
    (loadPages splitText : String → List String) (files : List String)
    (hf : recognizedPdfFiles files = []) (q : String) (hq : q ≠ "") :
    MemoryVectorStore.query sim [] v k = [] ∧
      (POST sim embedQuery embedDoc loadPages splitText files false none
          (some q)).result =
        .ok (200, [Event.embedQuery, Event.close]) := by
  have hempty : ∀ w j, MemoryVectorStore.query sim [] w j = [] := by
    intro w j
    simp [MemoryVectorStore.query, queryRanked, scoredEntries]
  refine ⟨hempty v k, ?_⟩
  have hbuild : buildStore embedDoc (corpusChunks loadPages splitText files) =
      [] := by
    simp [corpusChunks, hf, buildStore]
  simp [POST, initVectorStore, jsFalsy, hq, hbuild,
    MemoryVectorStore.similaritySearch, hempty, streamEvents]

theorem query_empty_index_witness :
    MemoryVectorStore.query cSim [] [1] 3 = [] ∧
      (POST cSim cEmb cEmb cLoad cSplit ["readme.md"] false none
          (some "dogs")).result =
        .ok (200, [Event.embedQuery, Event.close]) :=
  query_empty_index cSim [1] 3 cEmb cEmb cLoad cSplit ["readme.md"]
    (by decide) "dogs" (by decide)

/-- **C10.** The handler calls `similaritySearch` without a `k` argument, so
the SDK default `k = 4` applies: every completed `POST` response stream — for
any corpus, any index state and any non-empty query — carries at most 4
result events, and the caller has no way to supply a different `k`. -/
theorem POST_at_most_four_results (sim : Emb → Emb → ℚ)
    (embedQuery : String → Emb) (embedDoc : String → Emb)
    (loadPages splitText : String → List String) (files : List String)
    (failIndex : Bool) (st : Option (List IndexEntry)) (body : Option String)
    (s : ℕ) (evs : List Event)
    (h : (POST sim embedQuery embedDoc loadPages splitText files failIndex st
      body).result = .ok (s, evs)) :
    dataEventCount evs ≤ 4 := by
  rcases POST_result_cases sim embedQuery embedDoc loadPages splitText files
    failIndex st body s evs h with ⟨_, hevs⟩ | ⟨store, _, _, hevs⟩
  · simp [hevs, dataEventCount]
  · rw [hevs, dataEventCount_stream]
    unfold MemoryVectorStore.similaritySearch
    rw [query_length]
    omega

theorem POST_at_most_four_results_witness :
    dataEventCount [Event.embedQuery,
      Event.data ⟨[1], "page one"⟩, Event.close] ≤ 4 :=
  POST_at_most_four_results cSim cEmb cEmb cLoad cSplit ["cv.pdf"] false none
    (some "dogs") 200 _ (by decide)

/-- **C1, counterexample.** The null-check guard does not make concurrent
callers await an in-flight pass: under the schedule in which both requests
perform their null-check before either publishes, both requests run to
completion and **two** indexing passes are started — refuting "at most one
indexing pass ever runs ... concurrent callers await the in-flight pass
rather than starting their own". -/
theorem concRun_two_passes :
    (concRun ["c1", "c2"] [false, true, false, true]).passes = 2 ∧
      (concRun ["c1", "c2"] [false, true, false, true]).phase0 = .done ∧
      (concRun ["c1", "c2"] [false, true, false, true]).phase1 = .done := by
  decide

theorem concStep_store_inv (chunks : List String) (s : ConcState) (i : Bool)
    (h : s.vectorStore = none ∨ s.vectorStore = some chunks) :
    (concStep chunks s i).vectorStore = none ∨
      (concStep chunks s i).vectorStore = some chunks := by
  rcases s with ⟨vs, p, p0, p1⟩
  cases i <;> cases p0 <;> cases p1 <;> rcases h with h | h <;>
    simp at h <;> subst h <;> simp [concStep, reqStep]

theorem concRun_store_inv (chunks : List String) (sched : List Bool) :
    (concRun chunks sched).vectorStore = none ∨
      (concRun chunks sched).vectorStore = some chunks := by
  have main : ∀ (l : List Bool) (s0 : ConcState),
      s0.vectorStore = none ∨ s0.vectorStore = some chunks →
      (l.foldl (concStep chunks) s0).vectorStore = none ∨
        (l.foldl (concStep chunks) s0).vectorStore = some chunks := by
    intro l
    induction l with
    | nil => intro s0 h0; exact h0
    | cons i t ih =>
        intro s0 h0
        exact ih _ (concStep_store_inv chunks s0 i h0)
  exact main sched _ (Or.inl rfl)

/-- **C1, amended.** Query requests that arrive before indexing completes may
each start their own indexing pass — the null-check guard only prevents
re-indexing after a pass has published — but every pass fills a fresh private
store and publishes it with a single assignment, so whatever the interleaving,
a published index always holds exactly the chunks produced by the corpus
(exactly their number, never a multiple of it). -/
theorem concRun_published_index_exact (chunks : List String)
    (sched : List Bool) (st : List String)
    (h : (concRun chunks sched).vectorStore = some st) :
    st = chunks ∧ st.length = chunks.length := by
  rcases concRun_store_inv chunks sched with hn | hs
  · rw [hn] at h; cases h
  · rw [hs] at h
    obtain rfl : st = chunks := (Option.some.injEq _ _ ▸ h).symm
    exact ⟨rfl, rfl⟩

theorem concRun_published_index_exact_witness :
    ["c1", "c2"] = ["c1", "c2"] ∧
      (["c1", "c2"] : List String).length = (["c1", "c2"] : List String).length :=
  concRun_published_index_exact ["c1", "c2"] [false, true, false, true]
    ["c1", "c2"] (by decide)

theorem chunkWindows_length_aux (M O L : ℕ) (h : O < M) :
    ∀ n c, L - c ≤ n → c + M < L →
      (chunkWindows M O L h c).length =
        (L - c - O + (M - O) - 1) / (M - O) := by
  intro n
  induction n with
  | zero => intro c hn hc; omega
  | succ n ih =>
      intro c hn hc
      rw [chunkWindows, if_neg (by omega)]
      rw [List.length_cons]
      by_cases h2 : L ≤ c + (M - O) + M
      · rw [chunkWindows, if_pos h2]
        rw [List.length_singleton]
        exact (Nat.div_eq_of_lt_le (by omega) (by omega)).symm
      · rw [ih (c + (M - O)) (by omega) (by omega)]
        have e1 : L - (c + (M - O)) - O + (M - O) - 1 = L - c - O - 1 := by
          omega
        have e2 : L - c - O + (M - O) - 1 = L - c - O - 1 + (M - O) := by
          omega
        rw [e1, e2, Nat.add_div_right _ (by omega)]

/-- **C5.** The chunk sequence of one raw unit of length `L`: when
`L ≤ maxChunkSize` it is exactly one chunk containing the unit's full text
(spanning offsets `0..L`), and when `L > maxChunkSize` it has exactly
`⌈(L - overlapSize) / (maxChunkSize - overlapSize)⌉` chunks (stated with
`Nat.ceilDiv`, the ceiling of the exact division). -/
theorem chunk_count (u : RawUnit) (M O : ℕ) (h : O < M) :
    (u.text.length ≤ M →
      chunk u M O h = [⟨u.text, u.sourceId, 0, u.text.length⟩]) ∧
      (M < u.text.length →
        (chunk u M O h).length = (u.text.length - O) ⌈/⌉ (M - O)) := by
  constructor
  · intro hL
    unfold chunk
    rw [chunkWindows, if_pos (by omega)]
    simp [List.take_length]
  · intro hL
    unfold chunk
    rw [List.length_map,
      chunkWindows_length_aux M O u.text.length h u.text.length 0 (by omega)
        (by omega),
      Nat.ceilDiv_eq_add_pred_div]
    congr 1

theorem chunk_count_witness :
    (chunk ⟨"hello world!".toList, "doc-a"⟩ 5 2 (by decide)).length = 4 ∧
      chunk ⟨"hi".toList, "doc-b"⟩ 5 2 (by decide) =
        [⟨"hi".toList, "doc-b", 0, "hi".toList.length⟩] :=
  ⟨((chunk_count ⟨"hello world!".toList, "doc-a"⟩ 5 2 (by decide)).2
      (by decide)).trans (by decide),
    (chunk_count ⟨"hi".toList, "doc-b"⟩ 5 2 (by decide)).1 (by decide)⟩

theorem chunkWindows_head (M O L : ℕ) (h : O < M) (c : ℕ) :
    ∃ t, chunkWindows M O L h c = (c, min (c + M) L) :: t := by
  rw [chunkWindows]
  by_cases h2 : L ≤ c + M
  · rw [if_pos h2]
    exact ⟨[], by rw [min_eq_right h2]⟩
  · rw [if_neg h2]
    exact ⟨_, by rw [min_eq_left (by omega)]⟩

theorem chunkWindows_chain (M O L : ℕ) (h : O < M) :
    ∀ n c, L - c ≤ n →
      List.Chain' (fun a b : ℕ × ℕ => b.1 + O = a.2 ∧ a.1 < b.1)
        (chunkWindows M O L h c) := by
  intro n
  induction n with
  | zero =>
      intro c hn
      rw [chunkWindows, if_pos (by omega)]
      exact List.chain'_singleton _
  | succ n ih =>
      intro c hn
      rw [chunkWindows]
      by_cases h2 : L ≤ c + M
      · rw [if_pos h2]
        exact List.chain'_singleton _
      · rw [if_neg h2]
        obtain ⟨t, ht⟩ := chunkWindows_head M O L h (c + (M - O))
        rw [ht]
        refine List.Chain'.cons ⟨by omega, by omega⟩ ?_
        rw [← ht]
        exact ih (c + (M - O)) (by omega)

theorem chunkWindows_width (M O L : ℕ) (h : O < M) :
    ∀ n c, L - c ≤ n → ∀ p ∈ chunkWindows M O L h c, p.2 - p.1 ≤ M := by
  intro n
  induction n with
  | zero =>
      intro c hn p hp
      rw [chunkWindows, if_pos (by omega)] at hp
      simp at hp
      subst hp
      show L - c ≤ M
      omega
  | succ n ih =>
      intro c hn p hp
      rw [chunkWindows] at hp
      by_cases h2 : L ≤ c + M
      · rw [if_pos h2] at hp
        simp at hp
        subst hp
        show L - c ≤ M
        omega
      · rw [if_neg h2] at hp
        rcases List.mem_cons.mp hp with rfl | hp'
        · show c + M - c ≤ M
          omega
        · exact ih (c + (M - O)) (by omega) p hp'

/-- **C6.** Offset arithmetic of the chunk sequence of one raw unit: every
pair of consecutive chunks overlaps by exactly `overlapSize` characters
(`next.offsetStart + O = current.offsetEnd`, with strictly increasing start
offsets), and every chunk spans at most `maxChunkSize` characters — only the
final chunk can be shorter, since every non-final chunk ends exactly `O`
before the start of a chunk that begins `M - O` after it. -/
theorem chunk_overlap (u : RawUnit) (M O : ℕ) (h : O < M) :
    List.Chain'
      (fun a b : Chunk => b.offsetStart + O = a.offsetEnd ∧
        a.offsetStart < b.offsetStart) (chunk u M O h) ∧
      ∀ ch ∈ chunk u M O h, ch.offsetEnd - ch.offsetStart ≤ M := by
  constructor
  · unfold chunk
    rw [List.chain'_map]
    exact chunkWindows_chain M O u.text.length h u.text.length 0 (by omega)
  · intro ch hch
    unfold chunk at hch
    rcases List.mem_map.mp hch with ⟨p, hp, rfl⟩
    exact chunkWindows_width M O u.text.length h u.text.length 0 (by omega) p hp

theorem chunk_overlap_witness :
    List.Chain'
      (fun a b : Chunk => b.offsetStart + 2 = a.offsetEnd ∧
        a.offsetStart < b.offsetStart)
      (chunk ⟨"hello world!".toList, "doc-a"⟩ 5 2 (by decide)) ∧
      ∀ ch ∈ chunk ⟨"hello world!".toList, "doc-a"⟩ 5 2 (by decide),
        ch.offsetEnd - ch.offsetStart ≤ 5 :=
  chunk_overlap ⟨"hello world!".toList, "doc-a"⟩ 5 2 (by decide)

theorem scoredEntries_idx_pairwise (sim : Emb → Emb → ℚ)
    (entries : List IndexEntry) (v : Emb) :
    List.Pairwise (fun a b : ℚ × ℕ × IndexEntry => a.2.1 ≠ b.2.1)
      (scoredEntries sim entries v) := by
  unfold scoredEntries
  rw [List.pairwise_map]
  have h1 : List.Pairwise (fun a b : ℕ => a ≠ b)
      (entries.enum.map Prod.fst) := by
    rw [List.enum_map_fst]
    exact List.nodup_range entries.length
  rw [List.pairwise_map] at h1
  exact h1

theorem queryRanked_pairwise (sim : Emb → Emb → ℚ)
    (entries : List IndexEntry) (v : Emb) (k : ℕ) :
    List.Pairwise
      (fun a b : ℚ × ℕ × IndexEntry =>
        b.1 < a.1 ∨ (a.1 = b.1 ∧ a.2.1 < b.2.1))
      (queryRanked sim entries v k) := by
  unfold queryRanked
  refine List.Pairwise.sublist (List.take_sublist k _) ?_
  have hsorted : List.Pairwise rankLE
      ((scoredEntries sim entries v).insertionSort rankLE) :=
    List.sorted_insertionSort rankLE (scoredEntries sim entries v)
  have hidx : List.Pairwise (fun a b : ℚ × ℕ × IndexEntry => a.2.1 ≠ b.2.1)
      ((scoredEntries sim entries v).insertionSort rankLE) :=
    (scoredEntries_idx_pairwise sim entries v).perm
      (List.perm_insertionSort rankLE (scoredEntries sim entries v)).symm
      (fun hab => hab.symm)
  refine (hsorted.and hidx).imp (fun hab => ?_)
  obtain ⟨hr, hne⟩ := hab
  rcases hr with hlt | ⟨heq, hle⟩
  · exact Or.inl hlt
  · exact Or.inr ⟨heq, lt_of_le_of_ne hle hne⟩

/-- **C4.** For every index with entries `E`, every query embedding `v`, every
`k ≥ 0` and every similarity function, the lookup returns exactly
`min(k, |E|)` results, these are the ranked entries in order, and the ranking
is strictly descending in the ranking order: every earlier result either has a
strictly greater similarity score, or an equal score and a strictly smaller
insertion index (earlier-added entries rank first on ties). -/
theorem similarity_query_ranking (sim : Emb → Emb → ℚ)
    (entries : List IndexEntry) (v : Emb) (k : ℕ) (_hne : entries ≠ []) :
    (MemoryVectorStore.query sim entries v k).length = min k entries.length ∧
      MemoryVectorStore.query sim entries v k =
        (queryRanked sim entries v k).map (fun p => p.2.2) ∧
      List.Pairwise
        (fun a b : ℚ × ℕ × IndexEntry =>
          b.1 < a.1 ∨ (a.1 = b.1 ∧ a.2.1 < b.2.1))
        (queryRanked sim entries v k) :=
  ⟨query_length sim entries v k, rfl, queryRanked_pairwise sim entries v k⟩

theorem similarity_query_ranking_witness :
    (MemoryVectorStore.query dotSim demoEntries [1, 0] 2).length =
        min 2 demoEntries.length ∧
      MemoryVectorStore.query dotSim demoEntries [1, 0] 2 =
        (queryRanked dotSim demoEntries [1, 0] 2).map (fun p => p.2.2) ∧
      List.Pairwise
        (fun a b : ℚ × ℕ × IndexEntry =>
          b.1 < a.1 ∨ (a.1 = b.1 ∧ a.2.1 < b.2.1))
        (queryRanked dotSim demoEntries [1, 0] 2) :=
  similarity_query_ranking dotSim demoEntries [1, 0] 2 (by decide)
